import Mathlib

/-!
Verification of the risk-model training pipeline
(`src/scripts/train_risk_model.py`) and of the Scoring Engine runtime
contract described in the specification.

The pipeline's pure data flow is embedded shallowly: dataframes are lists
of rows, numeric values are rationals, and the external numeric routines of
scikit-learn / numpy (the L-BFGS fit, AUC, cross-validation scores, the
precision-recall curve, the standard deviation) are parameters of the
pipeline, bundled in `EvalOracle`; every seed in the source is a fixed
constant, so all of these are deterministic functions.  The control flow
(column validation, stratified split, quality gate, export, error handling)
is embedded concretely from the source.
-/

/-- Required columns of the training dataset, in source order
(`required_cols` in `load_data`); the last entry is the label column. -/
def required_cols : List String :=
  ["gini_coefficient", "top_10_percentage", "total_holders",
   "liquidity_usd", "has_mint_authority", "has_freeze_authority",
   "verified", "audited", "community_trust_score", "sentiment_score",
   "token_age_days", "volume_24h", "price_volatility", "is_rug_pull"]

/-- The 13-feature schema: all required columns except the label
(`required_cols[:-1]` in the source). -/
def featureCols : List String := required_cols.dropLast

/-- A tabular dataset: a list of column names plus rows, each row giving a
numeric value for every column name. -/
structure DataFrame where
  cols : List String
  rows : List (String → ℚ)

/-- Error raised by `load_data` when required columns are absent
(the `ValueError` of the source, carrying the set of missing columns). -/
inductive LoadError where
  | missingColumns (missing : List String)
deriving DecidableEq

/-- Embeds `load_data`: verify all required columns are present (collecting
the missing ones), then project the feature matrix `X = df[required_cols[:-1]]`
and the label vector `y = df[is_rug_pull]`. -/
def load_data (df : DataFrame) : Except LoadError (List (List ℚ) × List ℚ) :=
  let missing := required_cols.filter (fun c => !(df.cols.contains c))
  if missing.isEmpty then
    .ok (df.rows.map (fun r => featureCols.map r),
         df.rows.map (fun r => r ("is_rug_pull")))
  else
    .error (.missingColumns missing)

/-- A linear congruential step; models the fixed-seed pseudo-random number
stream behind `random_state=42` (the source pins every stochastic choice to
seed 42, so the stream is a pure function of the seed). -/
def lcgNext (s : ℕ) : ℕ := (1103515245 * s + 12345) % 2147483648

/-- Deterministic Fisher-Yates-style shuffle driven by `lcgNext`; models the
seeded permutation that `train_test_split(random_state=42)` applies to the
indices of each label class. -/
def fyShuffle : ℕ → List ℕ → List ℕ
  | _, [] => []
  | seed, a :: as =>
    let l := a :: as
    let r := lcgNext seed
    let k := r % l.length
    l.getD k 0 :: fyShuffle r (l.eraseIdx k)
termination_by _ l => l.length
decreasing_by
  have hlt : lcgNext seed % (a :: as).length < (a :: as).length :=
    Nat.mod_lt _ (by simp)
  simp only [List.length_eraseIdx, if_pos hlt]
  omega

/-- Indices of rows whose label is 1 (the positive, rug-pull class). -/
def posIdx (y : List ℚ) : List ℕ :=
  (List.range y.length).filter (fun i => decide (y.getD i 0 = 1))

/-- Indices of rows whose label is not 1 (the negative class). -/
def negIdx (y : List ℚ) : List ℕ :=
  (List.range y.length).filter (fun i => !(decide (y.getD i 0 = 1)))

/-- Result of the train/test split: index lists into the dataset rows. -/
structure Split where
  trainIdx : List ℕ
  testIdx : List ℕ
deriving DecidableEq

/-- The held-out test size: `ceil(test_size * n)`, as scikit-learn computes
it for a fractional `test_size`. -/
def nTestOf (n : ℕ) (test_size : ℚ) : ℕ := (Int.ceil (test_size * n)).toNat

/-- Allocation of the test budget to the two label classes, proportional to
their frequencies: floored continuous shares, the remaining seat going to
the class with the larger fractional part (models the proportional
allocation of the stratified splitter). -/
def classAlloc (npos nneg nTest n : ℕ) : ℕ × ℕ :=
  let contPos : ℚ := (npos : ℚ) * nTest / n
  let contNeg : ℚ := (nneg : ℚ) * nTest / n
  let fPos := (Int.floor contPos).toNat
  let fNeg := (Int.floor contNeg).toNat
  let rem := nTest - fPos - fNeg
  if contPos - fPos < contNeg - fNeg then (fPos, fNeg + rem)
  else (fPos + rem, fNeg)

/-- Embeds `train_test_split(X, y, test_size=test_size, random_state=42,
stratify=y)` specialized to the binary label column of this pipeline:
the test size is `ceil(test_size * n)`, allocated to the two label classes
proportionally to their frequencies by `classAlloc`, and each class's
indices are shuffled by the fixed-seed stream before slicing off its test
share. -/
def train_test_split (y : List ℚ) (test_size : ℚ) : Split :=
  let n := y.length
  let nTest := nTestOf n test_size
  let pos := posIdx y
  let neg := negIdx y
  let alloc := classAlloc pos.length neg.length nTest n
  let sp := fyShuffle 42 pos
  let sn := fyShuffle (lcgNext 42) neg
  { trainIdx := sp.drop alloc.1 ++ sn.drop alloc.2,
    testIdx := sp.take alloc.1 ++ sn.take alloc.2 }

/-- First index at which the list is `true`; 0 when no entry is `true`.
Embeds `np.argmax` applied to a boolean mask (argmax of an all-false mask
is 0, since every entry attains the maximum `False`). -/
def argmaxBool (l : List Bool) : ℕ :=
  let i := l.findIdx (fun b => b)
  if i < l.length then i else 0

/-- Embeds lines 96-97 of the source: `idx = np.argmax(recall >= 0.9)` and
`precision[idx] if idx < len(precision) else precision[-1]`. -/
def precisionAt90 (precisions recalls : List ℚ) : ℚ :=
  let idx := argmaxBool (recalls.map (fun r => decide ((9 : ℚ)/10 ≤ r)))
  if idx < precisions.length then precisions.getD idx 0
  else precisions.getLastD 0

/-- The deterministic numeric routines the source delegates to scikit-learn
and numpy, bundled as explicit parameters of the pipeline: the logistic
regression fit (seed 42, returning one coefficient per feature column plus
an intercept), predicted probabilities, AUC-ROC, 5-fold cross-validated AUC
scores, the precision-recall curve (precision, recall, thresholds), and the
numpy standard deviation. -/
structure EvalOracle where
  fit : List (List ℚ) → List ℚ → List ℚ × ℚ
  predictProba : List ℚ → ℚ → List ℚ → ℚ
  rocAuc : List ℚ → List ℚ → ℚ
  crossValAuc : List (List ℚ) → List ℚ → List ℚ
  prCurve : List ℚ → List ℚ → List ℚ × List ℚ × List ℚ
  std : List ℚ → ℚ

/-- Mean of a list of rationals (numpy `.mean()`; 0 on the empty list). -/
def qmean (l : List ℚ) : ℚ := if l.isEmpty then 0 else l.sum / l.length

/-- The results dictionary returned by `train_model`. -/
structure TrainResults where
  coef : List ℚ
  intercept : ℚ
  auc_roc : ℚ
  cv_scores : List ℚ
  precision_at_90_recall : ℚ
  feature_importance : List (String × ℚ)
deriving DecidableEq

/-- Embeds `train_model`: split the rows with the fixed-seed stratified
split, fit the model on the training partition, score the test partition,
and compute the evaluation metrics, including the precision-at-90%-recall
selection of lines 96-97. -/
def train_model (o : EvalOracle) (X : List (List ℚ)) (y : List ℚ)
    (test_size : ℚ) : TrainResults :=
  let sp := train_test_split y test_size
  let Xtr := sp.trainIdx.map (fun i => X.getD i [])
  let ytr := sp.trainIdx.map (fun i => y.getD i 0)
  let Xte := sp.testIdx.map (fun i => X.getD i [])
  let yte := sp.testIdx.map (fun i => y.getD i 0)
  let fitres := o.fit Xtr ytr
  let coef := fitres.1
  let b := fitres.2
  let proba := Xte.map (fun x => o.predictProba coef b x)
  let auc := o.rocAuc yte proba
  let cv := o.crossValAuc Xtr ytr
  let pr := o.prCurve yte proba
  let pa90 := precisionAt90 pr.1 pr.2.1
  { coef := coef, intercept := b, auc_roc := auc, cv_scores := cv,
    precision_at_90_recall := pa90,
    feature_importance := featureCols.zip (coef.map (fun c => |c|)) }

/-- The weights document (`model_weights.json`). -/
structure ModelData where
  weights : List (String × ℚ)
  intercept : ℚ
  threshold : ℚ
deriving DecidableEq

/-- The metrics document (`model_metrics.json`); `training_date` is the
caller-supplied clock reading (`pd.Timestamp.now()`). -/
structure MetricsData where
  auc_roc : ℚ
  cv_mean : ℚ
  cv_std : ℚ
  precision_at_90_recall : ℚ
  training_date : String
  feature_importance : List (String × ℚ)
deriving DecidableEq

/-- Embeds `export_model`: pair each feature column with its coefficient,
scale every weight and the intercept by 100.0, fix `threshold = 0.5`, and
assemble the two output documents. -/
def export_model (o : EvalOracle) (results : TrainResults)
    (cols : List String) (now : String) : ModelData × MetricsData :=
  let weights := cols.zip results.coef
  let intercept := results.intercept
  let scaled_weights := weights.map (fun kv => (kv.1, kv.2 * 100))
  let scaled_intercept := intercept * 100
  let model_data : ModelData :=
    { weights := scaled_weights, intercept := scaled_intercept,
      threshold := 1/2 }
  let metrics : MetricsData :=
    { auc_roc := results.auc_roc,
      cv_mean := qmean results.cv_scores,
      cv_std := o.std results.cv_scores,
      precision_at_90_recall := results.precision_at_90_recall,
      training_date := now,
      feature_importance := results.feature_importance }
  (model_data, metrics)

/-- A document written to the output directory. -/
inductive Doc where
  | weightsDoc (m : ModelData)
  | metricsDoc (m : MetricsData)
deriving DecidableEq

/-- Observable outcome of one run of `main`: the quality-gate messages
printed, the documents written (file name paired with content, in write
order), the process exit code, and the diagnostic of the failure when the
run aborted. -/
structure RunOutput where
  gateMessages : List String
  written : List (String × Doc)
  exitCode : ℕ
  error : Option LoadError

/-- Embeds the `main` driver: load and validate the dataset, train, apply
the advisory quality gate (warn below 0.75 AUC, confirm at or above 0.85),
export both documents; any load failure aborts the run with exit code 1 and
nothing written. -/
def pipelineMain (o : EvalOracle) (df : DataFrame) (test_size : ℚ)
    (now : String) : RunOutput :=
  match load_data df with
  | .error e => { gateMessages := [], written := [], exitCode := 1, error := some e }
  | .ok (X, y) =>
    let results := train_model o X y test_size
    let msgs :=
      if results.auc_roc < 3/4 then
        ["WARNING: Model AUC-ROC is below recommended threshold of 0.75"]
      else if 17/20 ≤ results.auc_roc then
        ["Model meets performance requirements"]
      else []
    let docs := export_model o results featureCols now
    { gateMessages := msgs,
      written := [("model_weights.json", Doc.weightsDoc docs.1),
                  ("model_metrics.json", Doc.metricsDoc docs.2)],
      exitCode := 0, error := none }

/-!
The Scoring Engine.  The runtime engine has no source file in this
repository; the specification states it "has no equivalent in the given
source and is specified from its referenced contract", so everything in
this part is modelled from the specification text (sections 4.2, 4.3, 5
and 7 of the spec).
-/

/-- Modelled from the spec: a serialized numeric value of the weights
document, which may be non-finite (NaN or an infinity) — the load-time
validation must reject those. -/
inductive FVal where
  | fin (q : ℚ)
  | nan
  | inf
  | neginf
deriving DecidableEq

/-- Finiteness test on a serialized value. -/
def FVal.isFinite : FVal → Bool
  | .fin _ => true
  | _ => false

/-- The rational carried by a finite value (0 on non-finite values, which
validation has already excluded wherever this is used). -/
def FVal.toRat : FVal → ℚ
  | .fin q => q
  | _ => 0

/-- Modelled from the spec: the weights document of a Model Artifact —
`weights` (feature name to value), `intercept`, `threshold`. -/
structure Artifact where
  weights : List (String × FVal)
  intercept : FVal
  threshold : FVal
deriving DecidableEq

/-- Modelled from the spec: the `ArtifactError` taxonomy — which load-time
validation check failed. -/
inductive ArtifactError where
  | keysMismatch
  | nonFinite
  | thresholdOutOfRange
deriving DecidableEq

/-- Modelled from the spec: load-time validation of an artifact — reject if
the weights key set does not exactly match the Feature Schema, if any value
is non-finite, or if the threshold lies outside [0, 1]. -/
def validateArtifact (a : Artifact) : Except ArtifactError Unit :=
  let keys := a.weights.map Prod.fst
  if !(featureCols.all (fun c => keys.contains c) &&
       keys.all (fun k => featureCols.contains k)) then
    .error .keysMismatch
  else if !(a.weights.all (fun kv => kv.2.isFinite) &&
            a.intercept.isFinite && a.threshold.isFinite) then
    .error .nonFinite
  else if !(decide ((0 : ℚ) ≤ a.threshold.toRat) &&
            decide (a.threshold.toRat ≤ 1)) then
    .error .thresholdOutOfRange
  else
    .ok ()

/-- Modelled from the spec: the raw linear score
`intercept + sum of weight[f] * features[f]` of an artifact on a feature
vector.  The published probability is a fixed monotone squashing of this
value, so two calls agree on their published outputs exactly when they
agree on this raw value. -/
def scoreArtifact (a : Artifact) (x : String → ℚ) : ℚ :=
  a.intercept.toRat + (a.weights.map (fun kv => kv.2.toRat * x kv.1)).sum

/-- Modelled from the spec: the engine state — the currently active
artifact plus the rollback slot holding the previously active one. -/
structure EngineState where
  active : Artifact
  prev : Option Artifact
deriving DecidableEq

/-- Modelled from the spec: `reload` — validate the new artifact; on
failure report which check failed and leave the state untouched; on
success swap the new artifact in, retaining the old one in the rollback
slot. -/
def reload (s : EngineState) (a : Artifact) :
    Except ArtifactError Unit × EngineState :=
  match validateArtifact a with
  | .error e => (.error e, s)
  | .ok _ => (.ok (), { active := a, prev := some s.active })

/-- Modelled from the spec: the `NoPriorVersionError` of `rollback`. -/
inductive RollbackError where
  | noPriorVersion
deriving DecidableEq

/-- Modelled from the spec: `rollback` — restore the artifact in the
rollback slot (consuming it), failing with `NoPriorVersionError` when the
slot is empty. -/
def rollback (s : EngineState) : Except RollbackError EngineState :=
  match s.prev with
  | none => .error .noPriorVersion
  | some p => .ok { active := p, prev := none }

/-!
Interleaving model of concurrent scoring during one reload, modelled from
the spec: the active artifact is a single shared reference, each `score`
call reads that reference once (one atomic step) and then computes from
its private snapshot, and the reload replaces the reference in one atomic
swap.
-/

/-- Modelled from the spec: the state of one in-flight `score` call —
not yet started, holding a snapshot of the artifact reference, or done
with a result. -/
inductive PState where
  | waiting
  | got (a : Artifact)
  | done (r : ℚ)
deriving DecidableEq

/-- Modelled from the spec: the shared state — the artifact reference, the
states of the scoring calls, and whether the single reload has happened. -/
structure CState where
  ref : Artifact
  procs : List PState
  reloaded : Bool

/-- Modelled from the spec: one interleaving step — a scoring call reads
the shared reference, a scoring call computes its result from its own
snapshot, or the reload swaps the reference (at most once).  Scoring steps
carry no guard on `reloaded`: no scoring call ever waits for the reload. -/
inductive CStep (newA : Artifact) (inputs : ℕ → String → ℚ) :
    CState → CState → Prop where
  | read (s : CState) (i : ℕ) (h : s.procs[i]? = some .waiting) :
      CStep newA inputs s { s with procs := s.procs.set i (.got s.ref) }
  | eval (s : CState) (i : ℕ) (a : Artifact)
      (h : s.procs[i]? = some (.got a)) :
      CStep newA inputs s
        { s with procs := s.procs.set i (.done (scoreArtifact a (inputs i))) }
  | swap (s : CState) (h : s.reloaded = false) :
      CStep newA inputs s { s with ref := newA, reloaded := true }

/-- Modelled from the spec: the initial state — the old artifact active,
`n` scoring calls pending, reload not yet performed. -/
def initialC (oldA : Artifact) (n : ℕ) : CState :=
  { ref := oldA, procs := List.replicate n .waiting, reloaded := false }

/-- Reachability along interleaving steps. -/
def ReachC (newA : Artifact) (inputs : ℕ → String → ℚ) :
    CState → CState → Prop :=
  Relation.ReflTransGen (CStep newA inputs)

/-!
Concrete instances used to witness the theorems below.
-/

/-- An oracle with trivial numeric routines of the shapes scikit-learn
guarantees (one coefficient per feature). -/
def zeroOracle : EvalOracle :=
  { fit := fun _ _ => (List.replicate 13 0, 0),
    predictProba := fun _ _ _ => 0,
    rocAuc := fun _ _ => 0,
    crossValAuc := fun _ _ => [0],
    prCurve := fun _ _ => ([], [], []),
    std := fun _ => 0 }

/-- A sample positive-labelled row. -/
def rowPos : String → ℚ := fun c => if c = "is_rug_pull" then 1 else 2

/-- A sample negative-labelled row. -/
def rowNeg : String → ℚ := fun _ => 0

/-- A sample dataset holding every required column and both classes. -/
def dfOK : DataFrame :=
  { cols := required_cols, rows := [rowPos, rowNeg, rowPos, rowNeg, rowNeg] }

/-- The feature matrix `load_data` extracts from `dfOK`. -/
def XOK : List (List ℚ) := dfOK.rows.map (fun r => featureCols.map r)

/-- The label vector `load_data` extracts from `dfOK`. -/
def yOK : List ℚ := dfOK.rows.map (fun r => r ("is_rug_pull"))

/-- A sample dataset missing the `liquidity_usd` column. -/
def dfBad : DataFrame :=
  { cols := required_cols.erase ("liquidity_usd"), rows := [rowPos] }

/-- Sample training results with one coefficient per feature. -/
def resW : TrainResults :=
  { coef := List.replicate 13 1, intercept := 2, auc_roc := 0,
    cv_scores := [0], precision_at_90_recall := 0, feature_importance := [] }

/-- A valid sample artifact. -/
def artifactA : Artifact :=
  { weights := featureCols.map (fun c => (c, FVal.fin 1)),
    intercept := .fin 0, threshold := .fin 1 }

/-- A second valid sample artifact with different weights. -/
def artifactB : Artifact :=
  { weights := featureCols.map (fun c => (c, FVal.fin 2)),
    intercept := .fin 1, threshold := .fin 0 }

/-- An invalid sample artifact: its first required feature weight is
missing. -/
def artifactBad : Artifact :=
  { weights := (featureCols.drop 1).map (fun c => (c, FVal.fin 1)),
    intercept := .fin 0, threshold := .fin 1 }

/-- A freshly started engine: `artifactA` active, empty rollback slot. -/
def engine0 : EngineState := { active := artifactA, prev := none }

/-- A concrete input assignment for the concurrency witness. -/
def inp0 : ℕ → String → ℚ := fun _ _ => 0

/-- A positive row carrying a value in an extra, unknown column. -/
def rowPosX : String → ℚ := fun c => if c = "extra_column" then 99 else rowPos c

/-- `dfOK` with one extra unknown column added. -/
def dfExtra : DataFrame :=
  { cols := required_cols ++ ["extra_column"],
    rows := [rowPosX, rowNeg, rowPos, rowNeg, rowNeg] }

theorem map_fst_scale_zip (cols : List String) (coef : List ℚ)
    (h : cols.length ≤ coef.length) :
    ((cols.zip coef).map (fun kv => (kv.1, kv.2 * 100))).map Prod.fst = cols := by
  rw [List.map_map]
  have hc : (Prod.fst ∘ fun kv : String × ℚ => (kv.1, kv.2 * 100)) = Prod.fst := rfl
  rw [hc, List.map_fst_zip _ _ h]

/-- Claim C1: for every valid dataset containing both classes, training
followed by export produces a weights document whose key set is exactly the
13-feature schema, in particular without the label column. -/
theorem C1_weights_match_schema (o : EvalOracle) (df : DataFrame)
    (X : List (List ℚ)) (y : List ℚ) (ts : ℚ) (now : String)
    (hload : load_data df = .ok (X, y))
    (hpos : (1 : ℚ) ∈ y) (hneg : ∃ v ∈ y, v ≠ 1)
    (hshape : ∀ Xtr ytr, (o.fit Xtr ytr).1.length = featureCols.length) :
    ∃ md mt, (pipelineMain o df ts now).written =
        [("model_weights.json", Doc.weightsDoc md),
         ("model_metrics.json", Doc.metricsDoc mt)] ∧
      md.weights.map Prod.fst = featureCols ∧
      ("is_rug_pull") ∉ md.weights.map Prod.fst := by
  refine ⟨(export_model o (train_model o X y ts) featureCols now).1,
          (export_model o (train_model o X y ts) featureCols now).2, ?_, ?_, ?_⟩
  · simp only [pipelineMain, hload]
  · have hkeys : ((featureCols.zip (train_model o X y ts).coef).map
        (fun kv => (kv.1, kv.2 * 100))).map Prod.fst = featureCols :=
      map_fst_scale_zip _ _ (le_of_eq (hshape _ _).symm)
    simpa [export_model] using hkeys
  · have hkeys : ((featureCols.zip (train_model o X y ts).coef).map
        (fun kv => (kv.1, kv.2 * 100))).map Prod.fst = featureCols :=
      map_fst_scale_zip _ _ (le_of_eq (hshape _ _).symm)
    simp only [export_model]
    rw [hkeys]
    decide

/-- Claim C1 witness. -/
theorem C1_weights_match_schema_witness :
    load_data dfOK = .ok (XOK, yOK) ∧
    ((1 : ℚ) ∈ yOK ∧ ∃ v ∈ yOK, v ≠ 1) ∧
    (∀ Xtr ytr, (zeroOracle.fit Xtr ytr).1.length = featureCols.length) ∧
    (∃ md mt, (pipelineMain zeroOracle dfOK (1/5) ("d")).written =
        [("model_weights.json", Doc.weightsDoc md),
         ("model_metrics.json", Doc.metricsDoc mt)] ∧
      md.weights.map Prod.fst = featureCols ∧
      ("is_rug_pull") ∉ md.weights.map Prod.fst) :=
  ⟨rfl, ⟨by decide, by decide⟩, fun _ _ => rfl,
   C1_weights_match_schema zeroOracle dfOK XOK yOK (1/5) ("d") rfl
     (by decide) (by decide) (fun _ _ => rfl)⟩

theorem getD_scale_zip (cols : List String) (coef : List ℚ) (i : ℕ)
    (h : i < ((cols.zip coef).map (fun kv => (kv.1, kv.2 * 100))).length) :
    ((cols.zip coef).map (fun kv => (kv.1, kv.2 * 100))).getD i ("", 0)
      = (cols.getD i "", coef.getD i 0 * 100) := by
  induction cols generalizing coef i with
  | nil => simp at h
  | cons c cs ih =>
    cases coef with
    | nil => simp at h
    | cons w ws =>
      cases i with
      | zero => simp
      | succ j =>
        simp only [List.zip_cons_cons, List.map_cons, List.getD_cons_succ]
        exact ih ws j (by simpa using h)

/-- Claim C2: at export every per-feature weight and the intercept equal
exactly 100 times the fitted coefficient and intercept, and the exported
threshold is 0.5 unconditionally, for every training result whatever its
data and metrics. -/
theorem C2_export_scaling (o : EvalOracle) (results : TrainResults)
    (now : String) :
    (export_model o results featureCols now).1.threshold = 1/2 ∧
    (export_model o results featureCols now).1.intercept
      = results.intercept * 100 ∧
    ∀ i, i < (export_model o results featureCols now).1.weights.length →
      (export_model o results featureCols now).1.weights.getD i ("", 0)
        = (featureCols.getD i "", results.coef.getD i 0 * 100) := by
  refine ⟨rfl, rfl, fun i hi => ?_⟩
  exact getD_scale_zip featureCols results.coef i hi

/-- Claim C2 witness. -/
theorem C2_export_scaling_witness :
    0 < (export_model zeroOracle resW featureCols ("d")).1.weights.length ∧
    (export_model zeroOracle resW featureCols ("d")).1.weights.getD 0 ("", 0)
      = (featureCols.getD 0 "", resW.coef.getD 0 0 * 100) :=
  ⟨by decide, (C2_export_scaling zeroOracle resW ("d")).2.2 0 (by decide)⟩

/-- Claim C3: the quality gate is advisory — below 0.75 AUC a warning is
emitted, at or above 0.85 a confirmation, in between neither; in every case
the run exports both documents and exits 0. -/
theorem C3_gate_advisory (o : EvalOracle) (df : DataFrame)
    (X : List (List ℚ)) (y : List ℚ) (ts : ℚ) (now : String)
    (hload : load_data df = .ok (X, y)) :
    ((train_model o X y ts).auc_roc < 3/4 →
      (pipelineMain o df ts now).gateMessages =
        ["WARNING: Model AUC-ROC is below recommended threshold of 0.75"]) ∧
    (17/20 ≤ (train_model o X y ts).auc_roc →
      (pipelineMain o df ts now).gateMessages =
        ["Model meets performance requirements"]) ∧
    (3/4 ≤ (train_model o X y ts).auc_roc →
      (train_model o X y ts).auc_roc < 17/20 →
      (pipelineMain o df ts now).gateMessages = []) ∧
    (pipelineMain o df ts now).written =
      [("model_weights.json",
        Doc.weightsDoc (export_model o (train_model o X y ts) featureCols now).1),
       ("model_metrics.json",
        Doc.metricsDoc (export_model o (train_model o X y ts) featureCols now).2)] ∧
    (pipelineMain o df ts now).exitCode = 0 := by
  refine ⟨fun h1 => ?_, fun h2 => ?_, fun h3 h4 => ?_, ?_, ?_⟩
  · simp only [pipelineMain, hload]
    simp [if_pos h1]
  · simp only [pipelineMain, hload]
    rw [if_neg (by linarith), if_pos h2]
  · simp only [pipelineMain, hload]
    rw [if_neg (by linarith), if_neg (by linarith)]
  · simp only [pipelineMain, hload]
  · simp only [pipelineMain, hload]

/-- Claim C3 witness. -/
theorem C3_gate_advisory_witness :
    load_data dfOK = .ok (XOK, yOK) ∧
    ((train_model zeroOracle XOK yOK (1/5)).auc_roc < 3/4 →
      (pipelineMain zeroOracle dfOK (1/5) ("d")).gateMessages =
        ["WARNING: Model AUC-ROC is below recommended threshold of 0.75"]) ∧
    (pipelineMain zeroOracle dfOK (1/5) ("d")).exitCode = 0 := by
  refine ⟨rfl, ?_, ?_⟩
  · exact (C3_gate_advisory zeroOracle dfOK XOK yOK (1/5) ("d") rfl).1
  · exact (C3_gate_advisory zeroOracle dfOK XOK yOK (1/5) ("d") rfl).2.2.2.2

/-- Claim C4: a dataset missing required columns makes the run abort with a
schema failure naming exactly the missing columns; nothing is written, the
exit code is non-zero, and no fitting is attempted (the outcome does not
depend on the numeric routines at all). -/
theorem C4_missing_columns_abort (o o2 : EvalOracle) (df : DataFrame)
    (ts : ℚ) (now : String)
    (hmiss : ∃ c ∈ required_cols, c ∉ df.cols) :
    (∃ m, (pipelineMain o df ts now).error = some (.missingColumns m) ∧
      m ≠ [] ∧ (∀ c, c ∈ m ↔ (c ∈ required_cols ∧ c ∉ df.cols))) ∧
    (pipelineMain o df ts now).written = [] ∧
    (pipelineMain o df ts now).gateMessages = [] ∧
    (pipelineMain o df ts now).exitCode = 1 ∧
    pipelineMain o df ts now = pipelineMain o2 df ts now := by
  have hmem : ∀ c, (c ∈ required_cols.filter (fun c => !(df.cols.contains c)))
      ↔ (c ∈ required_cols ∧ c ∉ df.cols) := by
    intro c
    simp [List.mem_filter]
  obtain ⟨c0, hc0r, hc0n⟩ := hmiss
  have hne : required_cols.filter (fun c => !(df.cols.contains c)) ≠ [] := by
    intro h
    have hin := (hmem c0).2 ⟨hc0r, hc0n⟩
    rw [h] at hin
    exact absurd hin (List.not_mem_nil c0)
  have hload : load_data df = .error (.missingColumns
      (required_cols.filter (fun c => !(df.cols.contains c)))) := by
    unfold load_data
    rw [if_neg]
    simpa [List.isEmpty_iff] using hne
  refine ⟨⟨_, ?_, hne, hmem⟩, ?_, ?_, ?_, ?_⟩ <;> simp only [pipelineMain, hload]

/-- Claim C4 witness. -/
theorem C4_missing_columns_abort_witness :
    (∃ c ∈ required_cols, c ∉ dfBad.cols) ∧
    (pipelineMain zeroOracle dfBad (1/5) ("d")).written = [] ∧
    (pipelineMain zeroOracle dfBad (1/5) ("d")).exitCode = 1 :=
  ⟨by decide,
   (C4_missing_columns_abort zeroOracle zeroOracle dfBad (1/5) ("d")
     (by decide)).2.1,
   (C4_missing_columns_abort zeroOracle zeroOracle dfBad (1/5) ("d")
     (by decide)).2.2.2.1⟩

/-- Claim C7: reload is atomic on failure — when the new artifact fails
validation, reload reports exactly which check failed, the engine state is
left unchanged, scores are unchanged for every input, and a usable (valid)
active model stays usable. -/
theorem C7_reload_atomic_on_failure (s : EngineState) (a : Artifact)
    (e : ArtifactError) (h : validateArtifact a = .error e) :
    reload s a = (.error e, s) ∧
    (reload s a).2 = s ∧
    (∀ x, scoreArtifact ((reload s a).2.active) x
      = scoreArtifact s.active x) ∧
    (validateArtifact s.active = .ok () →
      validateArtifact ((reload s a).2.active) = .ok ()) := by
  have hr : reload s a = (.error e, s) := by
    unfold reload
    rw [h]
  refine ⟨hr, ?_, ?_, ?_⟩ <;> rw [hr]
  · exact fun _ => rfl
  · exact fun hv => hv

/-- Claim C7 witness. -/
theorem C7_reload_atomic_on_failure_witness :
    validateArtifact artifactBad = .error .keysMismatch ∧
    reload engine0 artifactBad = (.error .keysMismatch, engine0) ∧
    validateArtifact engine0.active = .ok () :=
  ⟨by rfl,
   (C7_reload_atomic_on_failure engine0 artifactBad .keysMismatch
     (by rfl)).1,
   by rfl⟩

/-- Claim C8: after one successful reload, rollback succeeds and restores
the previously active artifact, with scores matching the pre-reload outputs
on every input; a second rollback with no intervening reload fails with
NoPriorVersionError, as does a rollback immediately after startup. -/
theorem C8_rollback_once (s0 : EngineState) (a : Artifact)
    (hstart : s0.prev = none) (hval : validateArtifact a = .ok ()) :
    rollback s0 = .error .noPriorVersion ∧
    (reload s0 a).1 = .ok () ∧
    (reload s0 a).2 = { active := a, prev := some s0.active } ∧
    rollback ((reload s0 a).2) = .ok { active := s0.active, prev := none } ∧
    (∀ x, scoreArtifact ({ active := s0.active, prev := none }
        : EngineState).active x = scoreArtifact s0.active x) ∧
    rollback ({ active := s0.active, prev := none } : EngineState)
      = .error .noPriorVersion := by
  have hrel : reload s0 a = (.ok (), { active := a, prev := some s0.active }) := by
    unfold reload
    rw [hval]
  refine ⟨?_, ?_, ?_, ?_, fun _ => rfl, rfl⟩
  · unfold rollback
    rw [hstart]
  · rw [hrel]
  · rw [hrel]
  · rw [hrel]
    rfl

/-- Claim C8 witness. -/
theorem C8_rollback_once_witness :
    engine0.prev = none ∧
    validateArtifact artifactB = .ok () ∧
    rollback engine0 = .error .noPriorVersion ∧
    rollback ((reload engine0 artifactB).2)
      = .ok { active := engine0.active, prev := none } ∧
    rollback ({ active := engine0.active, prev := none } : EngineState)
      = .error .noPriorVersion :=
  ⟨rfl, by rfl,
   (C8_rollback_once engine0 artifactB rfl (by rfl)).1,
   (C8_rollback_once engine0 artifactB rfl (by rfl)).2.2.2.1,
   (C8_rollback_once engine0 artifactB rfl (by rfl)).2.2.2.2.2⟩

theorem getD_le_getD_zero_of_sortedGe (l : List ℚ)
    (h : l.Sorted (fun a b => b ≤ a)) (i : ℕ) (hi : i < l.length) :
    l.getD i 0 ≤ l.getD 0 0 := by
  have h0 : 0 < l.length := Nat.lt_of_le_of_lt (Nat.zero_le i) hi
  have e1 : l.getD i 0 = l.get ⟨i, hi⟩ := by
    simp [List.getD_eq_getElem?_getD, List.getElem?_eq_getElem hi]
  have e0 : l.getD 0 0 = l.get ⟨0, h0⟩ := by
    simp [List.getD_eq_getElem?_getD, List.getElem?_eq_getElem h0]
  rw [e1, e0]
  rcases Nat.eq_zero_or_pos i with hz | hp
  · subst hz
    exact le_refl _
  · exact (List.pairwise_iff_get.1 h) ⟨0, h0⟩ ⟨i, hi⟩ (by simpa using hp)

theorem getD_zero_le_getD_of_sortedLt (l : List ℚ)
    (h : l.Sorted (· < ·)) (j : ℕ) (hj : j < l.length) :
    l.getD 0 0 ≤ l.getD j 0 := by
  have h0 : 0 < l.length := Nat.lt_of_le_of_lt (Nat.zero_le j) hj
  have e1 : l.getD j 0 = l.get ⟨j, hj⟩ := by
    simp [List.getD_eq_getElem?_getD, List.getElem?_eq_getElem hj]
  have e0 : l.getD 0 0 = l.get ⟨0, h0⟩ := by
    simp [List.getD_eq_getElem?_getD, List.getElem?_eq_getElem h0]
  rw [e1, e0]
  rcases Nat.eq_zero_or_pos j with hz | hp
  · subst hz
    exact le_refl _
  · exact le_of_lt ((List.pairwise_iff_get.1 h) ⟨0, h0⟩ ⟨j, hj⟩ (by simpa using hp))

/-- Claim C5: the reported precision-at-90%-recall metric is the precision
at the smallest threshold whose recall is at least 0.9 (equivalently, at
the earliest curve point to qualify), and when no point qualifies it is the
precision at the best-recall point achieved — for every precision-recall
curve of the shape scikit-learn produces (one more curve point than
threshold, recall non-increasing, thresholds strictly increasing). -/
theorem C5_precision_at_90_selection
    (precisions recalls thresholds : List ℚ)
    (hlen : recalls.length = precisions.length)
    (hne : recalls ≠ [])
    (hcorr : recalls.length = thresholds.length + 1)
    (hmono : recalls.Sorted (fun a b => b ≤ a))
    (hthr : thresholds.Sorted (· < ·)) :
    ((∃ i, i < recalls.length ∧ (9:ℚ)/10 ≤ recalls.getD i 0) →
      ∃ i0, (i0 < recalls.length ∧ (9:ℚ)/10 ≤ recalls.getD i0 0) ∧
        (∀ j, j < i0 → recalls.getD j 0 < (9:ℚ)/10) ∧
        precisionAt90 precisions recalls = precisions.getD i0 0 ∧
        (∀ j, j < thresholds.length → (9:ℚ)/10 ≤ recalls.getD j 0 →
          thresholds.getD i0 0 ≤ thresholds.getD j 0)) ∧
    ((∀ i, i < recalls.length → recalls.getD i 0 < (9:ℚ)/10) →
      ∃ j0, j0 < recalls.length ∧
        (∀ k, k < recalls.length → recalls.getD k 0 ≤ recalls.getD j0 0) ∧
        precisionAt90 precisions recalls = precisions.getD j0 0) := by
  have hlp : 0 < recalls.length := List.length_pos.2 hne
  have hlp' : 0 < precisions.length := hlen ▸ hlp
  constructor
  · rintro ⟨i, hi, hq⟩
    have hq0 : (9:ℚ)/10 ≤ recalls.getD 0 0 :=
      le_trans hq (getD_le_getD_zero_of_sortedGe recalls hmono i hi)
    have hres : precisionAt90 precisions recalls = precisions.getD 0 0 := by
      rcases recalls with _ | ⟨r, rs⟩
      · exact absurd rfl hne
      · have hfr : decide ((9:ℚ)/10 ≤ r) = true := by
          simpa using hq0
        simp [precisionAt90, argmaxBool, List.findIdx_cons, hfr, hlp']
    refine ⟨0, ⟨hlp, hq0⟩, fun j hj => absurd hj (Nat.not_lt_zero j), hres,
      fun j hj _ => getD_zero_le_getD_of_sortedLt thresholds hthr j hj⟩
  · intro hall
    have hfalse : ∀ x ∈ recalls.map (fun v => decide ((9:ℚ)/10 ≤ v)),
        x = false := by
      intro x hx
      obtain ⟨a, ha, rfl⟩ := List.mem_map.1 hx
      obtain ⟨⟨k, hk⟩, hget⟩ := List.mem_iff_get.1 ha
      have hgd : recalls.getD k 0 = a := by
        rw [← hget]
        simp [List.getD_eq_getElem?_getD, List.getElem?_eq_getElem hk]
      have : a < (9:ℚ)/10 := hgd ▸ hall k hk
      simpa using not_le.2 this
    have hfind : (recalls.map (fun v => decide ((9:ℚ)/10 ≤ v))).findIdx
        (fun b => b) = (recalls.map (fun v => decide ((9:ℚ)/10 ≤ v))).length := by
      rw [List.findIdx_eq_length]
      intro x hx
      simpa using hfalse x hx
    have hres : precisionAt90 precisions recalls = precisions.getD 0 0 := by
      simp [precisionAt90, argmaxBool, hfind, hlp']
    exact ⟨0, hlp,
      fun k hk => getD_le_getD_zero_of_sortedGe recalls hmono k hk, hres⟩

/-- Claim C5 witness. -/
theorem C5_precision_at_90_selection_witness :
    (([(1:ℚ), 0].length = [(1:ℚ), 2].length) ∧ ([(1:ℚ), 0] ≠ ([] : List ℚ)) ∧
     ([(1:ℚ), 0].length = [(3:ℚ)].length + 1) ∧
     ([(1:ℚ), 0].Sorted (fun a b => b ≤ a)) ∧
     ([(3:ℚ)].Sorted (· < ·))) ∧
    (((∃ i, i < [(1:ℚ), 0].length ∧ (9:ℚ)/10 ≤ [(1:ℚ), 0].getD i 0) →
      ∃ i0, (i0 < [(1:ℚ), 0].length ∧ (9:ℚ)/10 ≤ [(1:ℚ), 0].getD i0 0) ∧
        (∀ j, j < i0 → [(1:ℚ), 0].getD j 0 < (9:ℚ)/10) ∧
        precisionAt90 [(1:ℚ), 2] [(1:ℚ), 0] = [(1:ℚ), 2].getD i0 0 ∧
        (∀ j, j < [(3:ℚ)].length → (9:ℚ)/10 ≤ [(1:ℚ), 0].getD j 0 →
          [(3:ℚ)].getD i0 0 ≤ [(3:ℚ)].getD j 0)) ∧
    ((∀ i, i < [(1:ℚ), 0].length → [(1:ℚ), 0].getD i 0 < (9:ℚ)/10) →
      ∃ j0, j0 < [(1:ℚ), 0].length ∧
        (∀ k, k < [(1:ℚ), 0].length →
          [(1:ℚ), 0].getD k 0 ≤ [(1:ℚ), 0].getD j0 0) ∧
        precisionAt90 [(1:ℚ), 2] [(1:ℚ), 0] = [(1:ℚ), 2].getD j0 0)) :=
  ⟨⟨rfl, by decide, rfl, by decide, by decide⟩,
   C5_precision_at_90_selection [(1:ℚ), 2] [(1:ℚ), 0] [(3:ℚ)]
     rfl (by decide) rfl (by decide) (by decide)⟩

/-- The inductive invariant of the interleaving model: the shared reference
always holds one of the two artifacts, every snapshot held by a call is one
of the two artifacts, and every completed result was computed wholly from
one of the two artifacts on that call's own input. -/
def C9Inv (oldA newA : Artifact) (inputs : ℕ → String → ℚ) (s : CState) :
    Prop :=
  (s.ref = oldA ∨ s.ref = newA) ∧
  ∀ i, (∀ a, s.procs[i]? = some (PState.got a) → a = oldA ∨ a = newA) ∧
       (∀ r, s.procs[i]? = some (PState.done r) →
          r = scoreArtifact oldA (inputs i) ∨
          r = scoreArtifact newA (inputs i))

theorem C9Inv_initial (oldA newA : Artifact) (inputs : ℕ → String → ℚ)
    (n : ℕ) : C9Inv oldA newA inputs (initialC oldA n) := by
  refine ⟨Or.inl rfl, fun i => ⟨fun a ha => ?_, fun r hr => ?_⟩⟩
  · rw [initialC] at ha
    simp only [List.getElem?_replicate] at ha
    split at ha
    · cases ha
    · cases ha
  · rw [initialC] at hr
    simp only [List.getElem?_replicate] at hr
    split at hr
    · cases hr
    · cases hr

theorem C9Inv_step (oldA newA : Artifact) (inputs : ℕ → String → ℚ)
    (s s' : CState) (hinv : C9Inv oldA newA inputs s)
    (hstep : CStep newA inputs s s') : C9Inv oldA newA inputs s' := by
  obtain ⟨href, hprocs⟩ := hinv
  cases hstep with
  | read i h =>
    refine ⟨href, fun j => ⟨fun a ha => ?_, fun r hr => ?_⟩⟩
    · simp only [List.getElem?_set] at ha
      by_cases hij : i = j
      · rw [if_pos hij] at ha
        split at ha
        · cases ha
          exact href
        · cases ha
      · rw [if_neg hij] at ha
        exact (hprocs j).1 a ha
    · simp only [List.getElem?_set] at hr
      by_cases hij : i = j
      · rw [if_pos hij] at hr
        split at hr
        · cases hr
        · cases hr
      · rw [if_neg hij] at hr
        exact (hprocs j).2 r hr
  | eval i a h =>
    refine ⟨href, fun j => ⟨fun a' ha' => ?_, fun r hr => ?_⟩⟩
    · simp only [List.getElem?_set] at ha'
      by_cases hij : i = j
      · rw [if_pos hij] at ha'
        split at ha'
        · cases ha'
        · cases ha'
      · rw [if_neg hij] at ha'
        exact (hprocs j).1 a' ha'
    · simp only [List.getElem?_set] at hr
      by_cases hij : i = j
      · rw [if_pos hij] at hr
        split at hr
        · cases hr
          subst hij
          rcases (hprocs i).1 a h with h1 | h1
          · rw [h1]
            exact Or.inl rfl
          · rw [h1]
            exact Or.inr rfl
        · cases hr
      · rw [if_neg hij] at hr
        exact (hprocs j).2 r hr
  | swap h =>
    exact ⟨Or.inr rfl, hprocs⟩

/-- Claim C9: reload atomicity under concurrency — along every interleaving
of concurrent score calls with a single reload, every completed score
result was computed entirely from the pre-reload artifact or entirely from
the post-reload artifact, and no unfinished score call is ever blocked: it
always has an enabled step, whatever the reload's state. -/
theorem C9_reload_atomicity (oldA newA : Artifact)
    (inputs : ℕ → String → ℚ) (n : ℕ) (s : CState)
    (hreach : ReachC newA inputs (initialC oldA n) s) :
    (∀ (i : ℕ) (r : ℚ), s.procs[i]? = some (PState.done r) →
      r = scoreArtifact oldA (inputs i) ∨
      r = scoreArtifact newA (inputs i)) ∧
    (∀ (i : ℕ), s.procs[i]? = some PState.waiting →
      ∃ s', CStep newA inputs s s') ∧
    (∀ (i : ℕ) (a : Artifact), s.procs[i]? = some (PState.got a) →
      ∃ s', CStep newA inputs s s') := by
  have hinv : C9Inv oldA newA inputs s := by
    induction hreach with
    | refl => exact C9Inv_initial oldA newA inputs n
    | tail hr hstep ih => exact C9Inv_step oldA newA inputs _ _ ih hstep
  refine ⟨fun i r hr => (hinv.2 i).2 r hr, ?_, ?_⟩
  · intro i hw
    exact ⟨_, CStep.read s i hw⟩
  · intro i a hg
    exact ⟨_, CStep.eval s i a hg⟩


/-- Claim C9 witness. -/
theorem C9_reload_atomicity_witness :
    ReachC artifactB inp0 (initialC artifactA 1)
      { ref := artifactB,
        procs := [PState.done (scoreArtifact artifactA (inp0 0))],
        reloaded := true } ∧
    (∀ (i : ℕ) (r : ℚ),
      ({ ref := artifactB,
         procs := [PState.done (scoreArtifact artifactA (inp0 0))],
         reloaded := true } : CState).procs[i]? = some (PState.done r) →
      r = scoreArtifact artifactA (inp0 i) ∨
      r = scoreArtifact artifactB (inp0 i)) := by
  have st1 : CStep artifactB inp0 (initialC artifactA 1)
      { ref := artifactA, procs := [PState.got artifactA],
        reloaded := false } :=
    CStep.read (initialC artifactA 1) 0 rfl
  have st2 : CStep artifactB inp0
      { ref := artifactA, procs := [PState.got artifactA], reloaded := false }
      { ref := artifactB, procs := [PState.got artifactA],
        reloaded := true } :=
    CStep.swap _ rfl
  have st3 : CStep artifactB inp0
      { ref := artifactB, procs := [PState.got artifactA], reloaded := true }
      { ref := artifactB,
        procs := [PState.done (scoreArtifact artifactA (inp0 0))],
        reloaded := true } :=
    CStep.eval _ 0 artifactA rfl
  have hreach : ReachC artifactB inp0 (initialC artifactA 1)
      { ref := artifactB,
        procs := [PState.done (scoreArtifact artifactA (inp0 0))],
        reloaded := true } :=
    Relation.ReflTransGen.tail
      (Relation.ReflTransGen.tail (Relation.ReflTransGen.single st1) st2) st3
  exact ⟨hreach, (C9_reload_atomicity artifactA artifactB inp0 1 _ hreach).1⟩

theorem rows_getD_eq_get (l : List (String → ℚ)) (i : ℕ) (h : i < l.length) :
    l.getD i (fun _ => 0) = l.get ⟨i, h⟩ := by
  simp [List.getD_eq_getElem?_getD, List.getElem?_eq_getElem h]

/-- Claim C10: extra dataset columns are ignored — two datasets agreeing on
the 13 required feature columns and the label column (but free to differ in
any additional columns) load identically and produce identical run outputs,
including identical exported weights and metrics documents, under every
choice of numeric routines (so unknown columns never reach the fit). -/
theorem C10_extra_columns_ignored (o : EvalOracle) (df1 df2 : DataFrame)
    (ts : ℚ) (now : String)
    (hsub1 : ∀ c ∈ required_cols, c ∈ df1.cols)
    (hsub2 : ∀ c ∈ required_cols, c ∈ df2.cols)
    (hlenr : df1.rows.length = df2.rows.length)
    (hagree : ∀ i ∈ List.range df1.rows.length, ∀ c ∈ required_cols,
      df1.rows.getD i (fun _ => 0) c = df2.rows.getD i (fun _ => 0) c) :
    load_data df1 = load_data df2 ∧
    pipelineMain o df1 ts now = pipelineMain o df2 ts now := by
  have hmiss : ∀ df : DataFrame, (∀ c ∈ required_cols, c ∈ df.cols) →
      required_cols.filter (fun c => !(df.cols.contains c)) = [] := by
    intro df hsub
    rw [List.filter_eq_nil]
    intro c hc
    have h2 : df.cols.contains c = true := List.elem_eq_true_of_mem (hsub c hc)
    simp [h2]
    exact hsub c hc
  have hagree' : ∀ (i : ℕ) (h1 : i < df1.rows.length)
      (h2 : i < df2.rows.length), ∀ c ∈ required_cols,
      df1.rows.get ⟨i, h1⟩ c = df2.rows.get ⟨i, h2⟩ c := by
    intro i h1 h2 c hc
    have := hagree i (List.mem_range.2 h1) c hc
    rwa [rows_getD_eq_get df1.rows i h1, rows_getD_eq_get df2.rows i h2] at this
  have hX : df1.rows.map (fun r => featureCols.map r)
      = df2.rows.map (fun r => featureCols.map r) := by
    apply List.ext_getElem (by simpa using hlenr)
    intro i h1 h2
    simp only [List.getElem_map]
    apply List.map_congr_left
    intro c hc
    have hcr : c ∈ required_cols := List.dropLast_subset required_cols hc
    have h1' : i < df1.rows.length := by simpa using h1
    have h2' : i < df2.rows.length := by simpa using h2
    have := hagree' i h1' h2' c hcr
    simpa [List.get_eq_getElem] using this
  have hy : df1.rows.map (fun r => r ("is_rug_pull"))
      = df2.rows.map (fun r => r ("is_rug_pull")) := by
    apply List.ext_getElem (by simpa using hlenr)
    intro i h1 h2
    simp only [List.getElem_map]
    have h1' : i < df1.rows.length := by simpa using h1
    have h2' : i < df2.rows.length := by simpa using h2
    have := hagree' i h1' h2' ("is_rug_pull") (by decide)
    simpa [List.get_eq_getElem] using this
  have hload : load_data df1 = load_data df2 := by
    simp only [load_data, hmiss df1 hsub1, hmiss df2 hsub2]
    rw [hX, hy]
  refine ⟨hload, ?_⟩
  unfold pipelineMain
  rw [hload]


/-- Claim C10 witness. -/
theorem C10_extra_columns_ignored_witness :
    (∀ c ∈ required_cols, c ∈ dfOK.cols) ∧
    (∀ c ∈ required_cols, c ∈ dfExtra.cols) ∧
    dfOK.rows.length = dfExtra.rows.length ∧
    (∀ i ∈ List.range dfOK.rows.length, ∀ c ∈ required_cols,
      dfOK.rows.getD i (fun _ => 0) c = dfExtra.rows.getD i (fun _ => 0) c) ∧
    (load_data dfOK = load_data dfExtra ∧
     pipelineMain zeroOracle dfOK (1/5) ("d")
       = pipelineMain zeroOracle dfExtra (1/5) ("d")) :=
  ⟨by decide, by decide, rfl, by decide,
   C10_extra_columns_ignored zeroOracle dfOK dfExtra (1/5) ("d")
     (by decide) (by decide) rfl (by decide)⟩

